import Mathlib

/-!
Verification of the SimpleAST C/C++ static analyzer (call-chain tracing,
boundary classification, dependency aggregation, branch complexity,
external-name classification and textual structure search).

The Python sources are shallowly embedded:

* A tree-sitter syntax node (`tree_sitter.Node`) is a `Node`: its `type`
  string, byte range, start row, the field tag it occupies in its parent
  (`child_by_field_name` looks children up by that tag) and its children in
  source order.  Source text is a `List Char` (the analyzed file is ASCII in
  every scenario of the spec, so byte = character); `get_node_text` is a
  slice of that list.
* Python dicts keyed by strings are association lists with
  insert-or-overwrite (`dictInsert`); Python sets of strings are duplicate
  free lists (`setAdd`).  Python mutation is explicit state passing.
* The recursive tracer `_trace_function_calls_recursive(func_name, src,
  visited, depth, max_depth)` is embedded with `fuel = max_depth - depth`:
  the guard `depth >= max_depth` is `fuel = 0` and the recursive call with
  `depth + 1` passes `fuel - 1`.  `trace_call_chain` starts at depth 0, so
  it passes `fuel = max_depth`.
-/

/-- A parsed syntax-tree node (the parse-tree API of §6 of the spec:
`Node.type`, byte range, `start_point[0]`, field tag, ordered children). -/
structure Node where
  type : String
  startByte : Nat
  endByte : Nat
  row : Nat
  field : Option String
  children : List Node

/-- `CppParser.get_node_text(node, source_code)`:
`source_code[node.start_byte:node.end_byte].decode('utf8')`. -/
def getNodeText (src : List Char) (n : Node) : String :=
  String.mk ((src.drop n.startByte).take (n.endByte - n.startByte))

/-! ### Python string primitives

The analyzer uses `str.strip`, `str.split`, `str.replace`, `in`,
`str.startswith` and `str.join`.  They are given here as directly
computable `List Char` operations (the corresponding Lean core `String`
functions work on byte positions and do not reduce inside the kernel).
The split and replace loops advance at least one character per step, so a
fuel of `length + 1` never runs out. -/

/-- Python whitespace (`str.strip` and regex `\s`). -/
def isPySpace (c : Char) : Bool :=
  c == ' ' || c == '\t' || c == '\n' || c == '\r' || c == '\x0b' || c == '\x0c'

/-- Python `s.strip()`. -/
def pyStrip (s : String) : String :=
  String.mk (((s.data.dropWhile isPySpace).reverse.dropWhile isPySpace).reverse)

/-- Python `c in s` for a single character. -/
def pyContainsChar (s : String) (c : Char) : Bool :=
  s.data.contains c

/-- Python `s.startswith(pre)`. -/
def pyStartsWith (s pre : String) : Bool :=
  pre.data.isPrefixOf s.data

/-- The scanning loop of `s.split(sep)` (non-empty `sep`), leftmost match
first; `acc` is the piece being accumulated. -/
def pySplitGo (sep : List Char) : Nat → List Char → List Char → List (List Char)
  | _, [], acc => [acc]
  | 0, s, acc => [acc ++ s]
  | fuel + 1, c :: rest, acc =>
    if sep.isPrefixOf (c :: rest) then
      acc :: pySplitGo sep fuel ((c :: rest).drop sep.length) []
    else pySplitGo sep fuel rest (acc ++ [c])

/-- Python `s.split(sep)` for a non-empty separator. -/
def pySplit (sep s : String) : List String :=
  (pySplitGo sep.data (s.data.length + 1) s.data []).map String.mk

/-- The scanning loop of `s.replace(pat, rep)` (non-empty `pat`),
non-overlapping leftmost matches. -/
def pyReplaceGo (pat rep : List Char) : Nat → List Char → List Char
  | _, [] => []
  | 0, s => s
  | fuel + 1, c :: rest =>
    if pat.isPrefixOf (c :: rest) then
      rep ++ pyReplaceGo pat rep fuel ((c :: rest).drop pat.length)
    else c :: pyReplaceGo pat rep fuel rest

/-- Python `s.replace(pat, rep)` for a non-empty pattern. -/
def pyReplace (s pat rep : String) : String :=
  String.mk (pyReplaceGo pat.data rep.data (s.data.length + 1) s.data)

/-- Python `sep.join(parts)`. -/
def pyJoin (sep : String) (parts : List String) : String :=
  String.mk (List.intercalate sep.data (parts.map String.data))

mutual

/-- `CppParser.find_nodes_by_type(node, node_type)`: the node itself when its
type matches, followed by the matches inside its children, in source order. -/
def findNodesByType (ty : String) : Node → List Node
  | ⟨t, sb, eb, r, f, cs⟩ =>
    (if t == ty then [⟨t, sb, eb, r, f, cs⟩] else []) ++ findNodesListByType ty cs

/-- The `for child in node.children: results.extend(...)` loop of
`find_nodes_by_type`. -/
def findNodesListByType (ty : String) : List Node → List Node
  | [] => []
  | c :: cs => findNodesByType ty c ++ findNodesListByType ty cs

end

/-- `CppParser.find_child_by_type(node, child_type)`: first direct child of
the given type. -/
def findChildByType (n : Node) (ty : String) : Option Node :=
  n.children.find? (fun c => c.type == ty)

/-- `node.child_by_field_name(name)` of the tree-sitter API: the direct child
carrying that field tag. -/
def childByFieldName (n : Node) (f : String) : Option Node :=
  n.children.find? (fun c => c.field == some f)

/-- The `for child in func_node.children` loop at the end of
`CppParser.get_function_name`: first identifier-like child decides the name;
a `scoped_identifier` without an `identifier` child falls through to the
next sibling; exhaustion returns `""`. -/
def firstDeclaredName (src : List Char) : List Node → String
  | [] => ""
  | c :: rest =>
    if c.type == "identifier" || c.type == "field_identifier" ||
        c.type == "destructor_name" then
      getNodeText src c
    else if c.type == "qualified_identifier" then
      (pySplit "::" (getNodeText src c)).getLastD ""
    else if c.type == "scoped_identifier" then
      match findChildByType c "identifier" with
      | some nameNode => getNodeText src nameNode
      | none => firstDeclaredName src rest
    else
      firstDeclaredName src rest

/-- `CppParser.get_function_name(func_node, source_code)`: unwrap to the
`function_declarator` child (when present) and take the first
identifier-like child's text. -/
def getFunctionName (src : List Char) (funcNode : Node) : String :=
  let n1 :=
    if funcNode.type == "function_definition" then
      match findChildByType funcNode "function_declarator" with
      | some d => d
      | none => funcNode
    else funcNode
  let n2 :=
    if n1.type == "function_declarator" then n1
    else
      match findChildByType n1 "function_declarator" with
      | some d => d
      | none => n1
  firstDeclaredName src n2.children

/-- `CppParser.get_function_signature(func_node, source_code)`: for a
`function_definition` with a `compound_statement` body, the stripped source
text from the definition's start byte to the body's start byte; otherwise
the node's own stripped text. -/
def getFunctionSignature (src : List Char) (funcNode : Node) : String :=
  if funcNode.type == "function_definition" then
    match findChildByType funcNode "compound_statement" with
    | some body =>
      pyStrip (String.mk ((src.drop funcNode.startByte).take
        (body.startByte - funcNode.startByte)))
    | none => pyStrip (getNodeText src funcNode)
  else pyStrip (getNodeText src funcNode)

/-! ## Python dict / set primitives (single_file_analyzer state) -/

/-- Python `d[k] = v` on a string-keyed dict: overwrite the existing binding
in place, else append (insertion order is preserved, as in CPython). -/
def dictInsert {A : Type} (m : List (String × A)) (k : String) (v : A) :
    List (String × A) :=
  if (m.lookup k).isSome then
    m.map (fun p => if p.1 = k then (k, v) else p)
  else m ++ [(k, v)]

/-- Python `s.add(x)` on a set of strings (duplicate-free list). -/
def setAdd (s : List String) (x : String) : List String :=
  if s.contains x then s else s ++ [x]

/-- One entry of `SingleFileAnalyzer.file_functions`:
`{node, signature, line, is_static}`. -/
structure FuncInfo where
  node : Node
  signature : String
  line : Nat
  is_static : Bool

/-- One entry of `SingleFileAnalyzer.file_data_structures`:
`{node, type, line, definition}`. -/
structure DSInfo where
  node : Node
  type : String
  line : Nat
  definition : String

/-- `SingleFileAnalyzer._is_static_function`: some child is a
`storage_class_specifier` whose text is `static`. -/
def isStaticFunction (src : List Char) (funcNode : Node) : Bool :=
  funcNode.children.any (fun c =>
    c.type == "storage_class_specifier" && getNodeText src c == "static")

/-- The record stored for one `function_definition` node by
`SingleFileAnalyzer._index_file_functions`. -/
def mkFuncInfo (src : List Char) (funcNode : Node) : FuncInfo :=
  { node := funcNode
    signature := getFunctionSignature src funcNode
    line := funcNode.row + 1
    is_static := isStaticFunction src funcNode }

/-- `SingleFileAnalyzer._index_file_functions`: one pass over every
`function_definition` node; a definition with no extractable name is
skipped; the dict assignment `file_functions[name] = {...}` overwrites, and
the name is added to `internal_functions`.  Returns
`(file_functions, internal_functions)`. -/
def indexFileFunctions (src : List Char) (root : Node) :
    List (String × FuncInfo) × List String :=
  (findNodesByType "function_definition" root).foldl
    (fun st funcNode =>
      let funcName := getFunctionName src funcNode
      if funcName == "" then st
      else (dictInsert st.1 funcName (mkFuncInfo src funcNode),
            setAdd st.2 funcName))
    ([], [])

/-- The `structure_types` table of
`SingleFileAnalyzer._index_file_data_structures` (node type ↦ kind). -/
def structureTypePairs : List (String × String) :=
  [("struct_specifier", "struct"), ("class_specifier", "class"),
   ("enum_specifier", "enum"), ("type_definition", "typedef")]

/-- Definition text capped at 500 characters, as in
`_index_file_data_structures`. -/
def truncateDefinition (d : String) : String :=
  if d.length > 500 then String.mk (d.toList.take 500) ++ "..." else d

/-- `SingleFileAnalyzer._index_file_data_structures`: for each of the four
structure node types in order, index every node that has a
`type_identifier` (or, failing that, `identifier`) child; the dict
assignment overwrites; the name is added to `internal_data_structures`. -/
def indexFileDataStructures (src : List Char) (root : Node) :
    List (String × DSInfo) × List String :=
  structureTypePairs.foldl
    (fun st pair =>
      (findNodesByType pair.1 root).foldl
        (fun st node =>
          let nameNode :=
            match findChildByType node "type_identifier" with
            | some n => some n
            | none => findChildByType node "identifier"
          match nameNode with
          | none => st
          | some n =>
            let structName := getNodeText src n
            (dictInsert st.1 structName
              { node := node, type := pair.2, line := node.row + 1,
                definition := truncateDefinition (getNodeText src node) },
             setAdd st.2 structName))
        st)
    ([], [])

/-- The denylist of `SingleFileAnalyzer._is_standard_library_function`. -/
def stdFunctionNames : List String :=
  ["printf", "scanf", "sprintf", "fprintf", "snprintf",
   "malloc", "free", "calloc", "realloc",
   "memcpy", "memset", "memmove", "memcmp",
   "strlen", "strcpy", "strcat", "strcmp", "strncpy", "strncmp",
   "fopen", "fclose", "fread", "fwrite", "fseek", "ftell",
   "exit", "abort", "assert",
   "sqrt", "pow", "sin", "cos", "exp", "log"]

/-- `SingleFileAnalyzer._is_standard_library_function`. -/
def isStdLibFunction (funcName : String) : Bool :=
  stdFunctionNames.contains funcName

/-- The denylist of `SingleFileAnalyzer._is_standard_library_type`. -/
def stdTypeNames : List String :=
  ["string", "vector", "list", "map", "set", "unordered_map",
   "unordered_set", "queue", "stack", "deque", "priority_queue",
   "shared_ptr", "unique_ptr", "weak_ptr",
   "mutex", "thread", "atomic",
   "ifstream", "ofstream", "fstream", "stringstream",
   "int8_t", "int16_t", "int32_t", "int64_t",
   "uint8_t", "uint16_t", "uint32_t", "uint64_t",
   "size_t", "ptrdiff_t"]

/-- `SingleFileAnalyzer._is_standard_library_type`. -/
def isStdLibType (typeName : String) : Bool :=
  stdTypeNames.contains typeName

/-- The member-call reduction shared by `_analyze_function_calls` and
`_trace_function_calls_recursive`: when the called text contains `.` or
`->`, replace `->` by `.`, split on `.` and keep the last segment
(`'->' in called` holds exactly when splitting on `->` gives ≥ 2 parts). -/
def reduceMemberCall (called : String) : String :=
  if pyContainsChar called '.' || decide (2 ≤ (pySplit "->" called).length) then
    let parts := pySplit "." (pyReplace called "->" ".")
    if parts.length ≥ 2 then parts.getLastD called else called
  else called

/-- `SingleFileAnalyzer._analyze_function_calls`: every `call_expression`
whose `function` field resolves to a name that is neither standard library
nor a key of `file_functions` is added to `external_functions`. -/
def analyzeFunctionCalls (src : List Char) (root : Node)
    (fileFunctions : List (String × FuncInfo)) : List String :=
  (findNodesByType "call_expression" root).foldl
    (fun ext callNode =>
      match childByFieldName callNode "function" with
      | none => ext
      | some funcNode =>
        let calledFunc := reduceMemberCall (getNodeText src funcNode)
        if isStdLibFunction calledFunc then ext
        else if (fileFunctions.lookup calledFunc).isSome then ext
        else setAdd ext calledFunc)
    []

/-- `SingleFileAnalyzer._analyze_data_structure_usage`: first every
`type_identifier` in the file, then every `type_identifier` inside the
`type` field of a `cast_expression`; names that are neither standard
library types nor keys of `file_data_structures` land in
`external_data_structures`. -/
def analyzeDataStructureUsage (src : List Char) (root : Node)
    (fileDataStructures : List (String × DSInfo)) : List String :=
  let firstPass :=
    (findNodesByType "type_identifier" root).foldl
      (fun ext typeNode =>
        let typeName := getNodeText src typeNode
        if isStdLibType typeName then ext
        else if (fileDataStructures.lookup typeName).isSome then ext
        else setAdd ext typeName)
      []
  (findNodesByType "cast_expression" root).foldl
    (fun ext castNode =>
      match childByFieldName castNode "type" with
      | none => ext
      | some typeDesc =>
        (findNodesByType "type_identifier" typeDesc).foldl
          (fun ext typeNode =>
            let typeName := getNodeText src typeNode
            if isStdLibType typeName then ext
            else if (fileDataStructures.lookup typeName).isSome then ext
            else setAdd ext typeName)
          ext)
    firstPass

/-- The `FileBoundary` dataclass (the parts derived from the syntax tree). -/
structure FileBoundary where
  internal_functions : List String
  external_functions : List String
  internal_data_structures : List String
  external_data_structures : List String
  file_data_structures : List (String × DSInfo)
  file_functions : List (String × FuncInfo)

/-- Steps 1–4 of `SingleFileAnalyzer.analyze_file` on an already parsed
tree: index functions, index data structures, then classify call and type
usages against the finished indexes. -/
def analyzeFileModel (src : List Char) (root : Node) : FileBoundary :=
  let fns := indexFileFunctions src root
  let dss := indexFileDataStructures src root
  let externalFns := analyzeFunctionCalls src root fns.1
  let externalDs := analyzeDataStructureUsage src root dss.1
  { internal_functions := fns.2
    external_functions := externalFns
    internal_data_structures := dss.2
    external_data_structures := externalDs
    file_data_structures := dss.1
    file_functions := fns.1 }

/-! ## Call-chain tracer (`trace_call_chain`, `_trace_function_calls_recursive`) -/

/-- The `CallNode` dataclass of `call_chain_tracer`. -/
structure CallNode where
  function_name : String
  file_path : String
  line_number : Nat
  signature : String
  called_from_line : Nat
  is_external : Bool
  is_recursive : Bool
  children : List CallNode

/-- `SingleFileAnalyzer._trace_function_calls_recursive`.  `fuel` stands for
`max_depth - depth`: the guard `depth >= max_depth` is `fuel = 0`, and the
recursive call at `depth + 1` gets `fuel - 1`.  `filePath` is
`self._current_file_path`.  A name without a `file_functions` entry yields
an external leaf; a name already in `visited` yields a node flagged
`is_recursive` with no children; otherwise each `call_expression` of the
body is resolved (member-call reduction, standard-library filter) and
traced with its own copy of the path set, and a produced child has its
`called_from_line` set to the call site's line. -/
def traceRec (src : List Char) (fileFunctions : List (String × FuncInfo))
    (filePath : String) (funcName : String) (visited : List String) :
    Nat → Option CallNode
  | 0 => none
  | fuel + 1 =>
    match fileFunctions.lookup funcName with
    | none =>
      some { function_name := funcName, file_path := "<external>",
             line_number := 0, signature := "<external function>",
             called_from_line := 0, is_external := true,
             is_recursive := false, children := [] }
    | some funcInfo =>
      let currentNode : CallNode :=
        { function_name := funcName, file_path := filePath,
          line_number := funcInfo.line, signature := funcInfo.signature,
          called_from_line := 0, is_external := false,
          is_recursive := visited.contains funcName, children := [] }
      if visited.contains funcName then some currentNode
      else
        let visited1 := funcName :: visited
        let callExpressions := findNodesByType "call_expression" funcInfo.node
        let children := callExpressions.filterMap (fun callExpr =>
          match childByFieldName callExpr "function" with
          | none => none
          | some funcExpr =>
            let calledName := reduceMemberCall (getNodeText src funcExpr)
            if isStdLibFunction calledName then none
            else
              match traceRec src fileFunctions filePath calledName visited1 fuel with
              | none => none
              | some childNode =>
                some { childNode with called_from_line := callExpr.row + 1 })
        some { currentNode with children := children }

/-- `SingleFileAnalyzer.trace_call_chain(func_name, source_code, max_depth=100)`:
`None` when the entry name has no definition in the file, else the
recursive trace from depth 0 (fuel `max_depth`). -/
def traceCallChain (src : List Char) (fileFunctions : List (String × FuncInfo))
    (filePath : String) (funcName : String) (maxDepth : Nat := 100) :
    Option CallNode :=
  if (fileFunctions.lookup funcName).isSome then
    traceRec src fileFunctions filePath funcName [] maxDepth
  else none

mutual

/-- All root-to-node paths of a call tree: `[n]`, and `n` prepended to every
path of every child, in order. -/
def pathsFrom : CallNode → List (List CallNode)
  | ⟨nm, fp, ln, sg, cfl, ex, rc, cs⟩ =>
    [⟨nm, fp, ln, sg, cfl, ex, rc, cs⟩] ::
      (pathsFromList cs).map (⟨nm, fp, ln, sg, cfl, ex, rc, cs⟩ :: ·)

/-- Paths of a list of subtrees, concatenated in order. -/
def pathsFromList : List CallNode → List (List CallNode)
  | [] => []
  | c :: cs => pathsFrom c ++ pathsFromList cs

end

mutual

/-- Every node of a call tree (the tree itself and, recursively, the nodes
of its children). -/
def allNodes : CallNode → List CallNode
  | ⟨nm, fp, ln, sg, cfl, ex, rc, cs⟩ =>
    ⟨nm, fp, ln, sg, cfl, ex, rc, cs⟩ :: allNodesList cs

/-- Nodes of a list of subtrees. -/
def allNodesList : List CallNode → List CallNode
  | [] => []
  | c :: cs => allNodes c ++ allNodesList cs

end

/-- Path invariant of the tracer, relative to the names `pre` already on the
path above: a node whose name is on the path is a recursive leaf, a node
flagged recursive has its name on the path, and the rest of the path
satisfies the invariant below that node. -/
def PathGood : List String → List CallNode → Prop
  | _, [] => True
  | pre, m :: rest =>
    (m.function_name ∈ pre → m.is_recursive = true ∧ m.children = []) ∧
    (m.is_recursive = true → m.function_name ∈ pre) ∧
    PathGood (m.function_name :: pre) rest

/-! ## Branch / complexity analyzer (`branch_analyzer.py`) -/

mutual

/-- `BranchAnalyzer._count_nodes(node, node_types)`: recursive count of the
nodes whose type is in the list. -/
def countNodes (types : List String) : Node → Nat
  | ⟨t, sb, eb, r, f, cs⟩ =>
    (if types.contains t then 1 else 0) + countNodesList types cs

/-- The `for child in node.children` summation of `_count_nodes`. -/
def countNodesList (types : List String) : List Node → Nat
  | [] => 0
  | c :: cs => countNodes types c + countNodesList types cs

end

/-- `BranchAnalyzer._count_switch_cases(node)`: total `case_statement` count
over every `switch_statement` found in the node (`_find_all_nodes`
coincides with `find_nodes_by_type`). -/
def countSwitchCases (n : Node) : Nat :=
  (findNodesByType "switch_statement" n).foldl
    (fun total switchNode => total + countNodes ["case_statement"] switchNode) 0

/-- `BranchAnalyzer._count_logical_operators(node, source_code)`: the number
of `binary_expression` nodes having a child of type `&&` or `||`. -/
def countLogicalOperators (n : Node) : Nat :=
  (findNodesByType "binary_expression" n).foldl
    (fun count opNode =>
      if opNode.children.any (fun c => c.type == "&&" || c.type == "||") then
        count + 1
      else count) 0

/-- `BranchAnalyzer._count_ternary_operators(node)`. -/
def countTernaryOperators (n : Node) : Nat :=
  countNodes ["conditional_expression"] n

/-- `BranchAnalyzer._count_early_returns(node)`: all but one
`return_statement`, when more than one. -/
def countEarlyReturns (n : Node) : Nat :=
  let returns := (findNodesByType "return_statement" n).length
  if returns > 1 then returns - 1 else 0

/-- `BranchAnalyzer._get_function_body(func_node)`: first direct
`compound_statement` child. -/
def getFunctionBody (funcNode : Node) : Option Node :=
  funcNode.children.find? (fun c => c.type == "compound_statement")

/-- The numeric fields of the `BranchAnalysis` dataclass.  (The
`conditions` narrative list feeds report text only and is outside every
claim, so it is not modelled.) -/
structure BranchAnalysis where
  cyclomatic_complexity : Nat
  if_count : Nat
  switch_count : Nat
  switch_cases : Nat
  loop_count : Nat
  early_return_count : Nat

/-- `BranchAnalyzer.analyze_function`: without a body the analysis is
`BranchAnalysis(1, 0, 0, 0, 0, 0, [])`; with a body, cyclomatic complexity
is `1 + if_count + loop_count + switch_cases + logical_ops + ternary_ops`. -/
def analyzeFunction (funcNode : Node) : BranchAnalysis :=
  match getFunctionBody funcNode with
  | none => ⟨1, 0, 0, 0, 0, 0⟩
  | some bodyNode =>
    let ifCount := countNodes ["if_statement"] bodyNode
    let switchCount := countNodes ["switch_statement"] bodyNode
    let switchCases := countSwitchCases bodyNode
    let loopCount :=
      countNodes ["for_statement", "while_statement", "do_statement"] bodyNode
    let earlyReturnCount := countEarlyReturns bodyNode
    let decisionPoints := ifCount + loopCount + switchCases
    let logicalOps := countLogicalOperators bodyNode
    let ternaryOps := countTernaryOperators bodyNode
    { cyclomatic_complexity := 1 + (decisionPoints + logicalOps + ternaryOps)
      if_count := ifCount
      switch_count := switchCount
      switch_cases := switchCases
      loop_count := loopCount
      early_return_count := earlyReturnCount }

/-! ## External function classifier (`external_classifier.py`) -/

/-- `fnmatch.fnmatch` glob semantics on POSIX (no case folding): `*` matches
any character run, `?` any single character, anything else itself.  The
configured pattern lists use only `*` and literal characters. -/
def globMatchChars : List Char → List Char → Bool
  | [], s => s.isEmpty
  | '*' :: ps, s => s.tails.any (fun t => globMatchChars ps t)
  | '?' :: ps, [] => false
  | '?' :: ps, _ :: s => globMatchChars ps s
  | p :: ps, [] => false && (p == p)
  | p :: ps, c :: s => p == c && globMatchChars ps s

/-- `fnmatch.fnmatch(func_name, pattern)`. -/
def fnmatchGlob (funcName pattern : String) : Bool :=
  globMatchChars pattern.toList funcName.toList

/-- `ExternalFunctionClassifier._matches_patterns(func_name, patterns)`. -/
def matchesPatterns (funcName : String) (patterns : List String) : Bool :=
  patterns.any (fun pattern => fnmatchGlob funcName pattern)

/-- The classifier's configuration: the four pattern lists read from
`external_function_classification`. -/
structure ClassifierConfig where
  standard_lib_patterns : List String
  logging_patterns : List String
  macro_patterns : List String
  custom_exclusions : List String

/-- `ExternalFunctionClassifier._get_default_config()` (used when no config
file exists). -/
def defaultClassifierConfig : ClassifierConfig :=
  { standard_lib_patterns :=
      ["std::*", "memset*", "memcpy*", "strcpy*", "strlen*",
       "malloc*", "free*", "printf*", "sprintf*"]
    logging_patterns :=
      ["*LOG*", "*log*", "*PRINT*", "*Print*", "*ASSERT*", "*CHECK*", "*TRACE*"]
    macro_patterns :=
      ["*_RETURN*", "*_CHECK*", "OFFSET_*", "GET_*",
       "MSGLEN_*", "SET_*", "RESET_*", "CLEAR_*"]
    custom_exclusions := [] }

/-- Python `str.isupper()` on the name with `_` and digits removed: at least
one cased (alphabetic) character remains and none of them is lowercase. -/
def strippedNameIsUpper (funcName : String) : Bool :=
  let stripped := funcName.toList.filter (fun c => !(c == '_' || c.isDigit))
  stripped.any Char.isAlpha && stripped.all (fun c => !c.isLower)

/-- `ExternalFunctionClassifier._is_likely_macro`: all-uppercase with at
least one underscore, or matching a configured macro glob. -/
def likelyMacroName (cfg : ClassifierConfig) (funcName : String) : Bool :=
  (strippedNameIsUpper funcName && pyContainsChar funcName '_') ||
    matchesPatterns funcName cfg.macro_patterns

/-- The four buckets returned by `ExternalFunctionClassifier.classify`. -/
structure Classification where
  business : List String
  standard_library : List String
  logging_utility : List String
  macros : List String

/-- `ExternalFunctionClassifier.classify(external_functions)`: each name
lands in the first matching bucket in the fixed order macro-heuristic →
custom exclusions (default bucket `logging_utility`) → standard-library
globs → logging globs → `business`. -/
def classify (cfg : ClassifierConfig) (externalFunctions : List String) :
    Classification :=
  externalFunctions.foldl
    (fun result func =>
      if likelyMacroName cfg func then
        { result with macros := setAdd result.macros func }
      else if matchesPatterns func cfg.custom_exclusions then
        { result with logging_utility := setAdd result.logging_utility func }
      else if matchesPatterns func cfg.standard_lib_patterns then
        { result with standard_library := setAdd result.standard_library func }
      else if matchesPatterns func cfg.logging_patterns then
        { result with logging_utility := setAdd result.logging_utility func }
      else { result with business := setAdd result.business func })
    ⟨[], [], [], []⟩

/-! ## Dependency aggregation (`AnalysisResult._collect_all_dependencies`) -/

/-- The three mutable sets threaded through
`_collect_all_dependencies(node, internal_set, external_set, exclude_func,
visited)`. -/
structure DepState where
  internal_set : List String
  external_set : List String
  visited : List String

/-- `AnalysisResult._collect_all_dependencies`: walk the children of a call
tree; a child named like `exclude_func` is skipped, an already-visited
child is skipped, an external child goes to `external_set`, an internal
child goes to `internal_set`, is marked visited, and when `call_chains`
holds a tree for its name that tree's dependencies are collected with the
same shared state.  `chains` is `self.call_chains`; `fuel` bounds the
recursion depth through `call_chains` (the Python recursion terminates
because `visited` grows at each descent; every claim proved below holds
for every fuel value). -/
def collectAllDependencies (chains : List (String × CallNode))
    (excludeFunc : Option String) : Nat → CallNode → DepState → DepState
  | 0, _, st => st
  | fuel + 1, node, st =>
    if node.children.isEmpty then st
    else
      node.children.foldl
        (fun st child =>
          if excludeFunc == some child.function_name then st
          else if st.visited.contains child.function_name then st
          else if child.is_external then
            { st with external_set := setAdd st.external_set child.function_name }
          else
            let st1 : DepState :=
              { st with
                internal_set := setAdd st.internal_set child.function_name,
                visited := setAdd st.visited child.function_name }
            match chains.lookup child.function_name with
            | some tree => collectAllDependencies chains excludeFunc fuel tree st1
            | none => st1)
        st

/-! ## Regular-expression engine for the textual structure search

`structure_extractor._search_struct_by_text` tests fixed `re` patterns
against single lines.  The patterns use only literals, the classes
`\s` `\w` `.`, alternation, `*` `+` `?` and anchoring, so they are encoded
into a small regex type matched by Brzozowski derivatives; `re.search`
with a `^`-anchored pattern is a prefix match, an unanchored pattern is a
substring match, and a trailing `$` makes the prefix match exact. -/

/-- Regular expressions over characters: empty language, empty word, a
character class, concatenation, alternation, Kleene star. -/
inductive RE where
  | emp : RE
  | eps : RE
  | cls : (Char → Bool) → RE
  | cat : RE → RE → RE
  | alt : RE → RE → RE
  | star : RE → RE

/-- Whether the language of the expression contains the empty word. -/
def RE.nullable : RE → Bool
  | .emp => false
  | .eps => true
  | .cls _ => false
  | .cat a b => a.nullable && b.nullable
  | .alt a b => a.nullable || b.nullable
  | .star _ => true

/-- Brzozowski derivative by one character. -/
def RE.deriv : RE → Char → RE
  | .emp, _ => .emp
  | .eps, _ => .emp
  | .cls p, c => if p c then .eps else .emp
  | .cat a b, c =>
    if a.nullable then .alt (.cat (a.deriv c) b) (b.deriv c)
    else .cat (a.deriv c) b
  | .alt a b, c => .alt (a.deriv c) (b.deriv c)
  | .star a, c => .cat (a.deriv c) (.star a)

/-- Whole-word match by iterated derivatives. -/
def matchRE (r : RE) (s : List Char) : Bool :=
  (s.foldl RE.deriv r).nullable

/-- A literal string as a regex. -/
def RE.lit (s : String) : RE :=
  s.toList.foldr (fun c r => RE.cat (RE.cls (fun d => d == c)) r) RE.eps

/-- Python `\s` (ASCII whitespace). -/
def reSpace : RE :=
  RE.cls (fun c =>
    c == ' ' || c == '\t' || c == '\n' || c == '\r' || c == '\x0b' || c == '\x0c')

/-- Python `\w` (ASCII word character). -/
def reWord : RE := RE.cls (fun c => c.isAlphanum || c == '_')

/-- Python `.` (anything but a newline). -/
def reDot : RE := RE.cls (fun c => !(c == '\n'))

/-- `r*`. -/
def reStar (r : RE) : RE := RE.star r

/-- `r+`. -/
def rePlus (r : RE) : RE := RE.cat r (RE.star r)

/-- `r?`. -/
def reOpt (r : RE) : RE := RE.alt r RE.eps

/-- Any character run (`.*` with DOTALL, used for unanchored searching). -/
def reAny : RE := RE.star (RE.cls (fun _ => true))

/-- `re.search` with a `^`-anchored pattern and no `$`: some prefix of the
line matches. -/
def reSearchAnchored (r : RE) (line : String) : Bool :=
  matchRE (RE.cat r reAny) line.toList

/-- `re.search` with `^...$`: the whole line matches. -/
def reSearchExact (r : RE) (line : String) : Bool :=
  matchRE r line.toList

/-- `re.search` with an unanchored pattern: some substring matches. -/
def reSearchAnywhere (r : RE) (line : String) : Bool :=
  matchRE (RE.cat reAny (RE.cat r reAny)) line.toList

/-! ## Textual structure search (`StructureExtractor._search_struct_by_text`,
`StructureSearcher._find_struct_start_backward`) -/

/-- Concatenation of a sequence of regexes. -/
def reSeq (l : List RE) : RE := l.foldr RE.cat RE.eps

/-- Python `line.count(c)`, as an integer for brace balancing. -/
def charCount (s : String) (c : Char) : Int := (s.toList.count c : Int)

/-- Pattern 1 of `_search_struct_by_text`:
`^\s*(struct|class)\s+NAME\s*$`. -/
def structHeadExactRE (structName : String) : RE :=
  reSeq [reStar reSpace, RE.alt (RE.lit "struct") (RE.lit "class"),
         rePlus reSpace, RE.lit structName, reStar reSpace]

/-- Pattern 2: `^\s*(struct|class)\s+NAME\s*\{`. -/
def structHeadBraceRE (structName : String) : RE :=
  reSeq [reStar reSpace, RE.alt (RE.lit "struct") (RE.lit "class"),
         rePlus reSpace, RE.lit structName, reStar reSpace, RE.lit "\x7b"]

/-- Pattern 3: `^\s*typedef\s+.*\s+NAME\s*;`. -/
def typedefSingleRE (structName : String) : RE :=
  reSeq [reStar reSpace, RE.lit "typedef", rePlus reSpace, reStar reDot,
         rePlus reSpace, RE.lit structName, reStar reSpace, RE.lit ";"]

/-- Pattern 4: `\}\s*\w*,?\s*NAME\s*;` (unanchored). -/
def typedefMultiRE (structName : String) : RE :=
  reSeq [RE.lit "\x7d", reStar reSpace, reStar reWord, reOpt (RE.lit ","),
         reStar reSpace, RE.lit structName, reStar reSpace, RE.lit ";"]

/-- Pattern 5: `^\s*using\s+NAME\s*=`. -/
def usingRE (structName : String) : RE :=
  reSeq [reStar reSpace, RE.lit "using", rePlus reSpace, RE.lit structName,
         reStar reSpace, RE.lit "="]

/-- The prioritized `patterns` table of `_search_struct_by_text`: a line
test together with the `def_type` tag. -/
def structSearchPatterns (structName : String) : List ((String → Bool) × String) :=
  [(reSearchExact (structHeadExactRE structName), "struct"),
   (reSearchAnchored (structHeadBraceRE structName), "struct"),
   (reSearchAnchored (typedefSingleRE structName), "typedef_single"),
   (reSearchAnywhere (typedefMultiRE structName), "typedef_multi"),
   (reSearchAnchored (usingRE structName), "using")]

/-- `re.match(r'^\s*typedef\s+(struct|union|enum)', prev_line)` used by the
upward scan. -/
def matchesTypedefStart (line : String) : Bool :=
  reSearchAnchored
    (reSeq [reStar reSpace, RE.lit "typedef", rePlus reSpace,
            RE.alt (RE.lit "struct") (RE.alt (RE.lit "union") (RE.lit "enum"))])
    line

/-- The upward scan of the `typedef_multi` branch: starting at `line_num`,
prepend each line, balance braces, stop (inclusively) when the balance is
zero on a `typedef struct|union|enum` line, cap at 60 collected lines with
an ellipsis marker, and stop after row 0. -/
def typedefMultiScanUp (lines : List String) : Nat → List String → Int → List String
  | 0, defLines, braceCount =>
    let prevLine := lines.getD 0 ""
    let defLines1 := prevLine :: defLines
    let braceCount1 := braceCount + charCount prevLine '}' - charCount prevLine '{'
    if braceCount1 == 0 && matchesTypedefStart prevLine then defLines1
    else if defLines1.length ≥ 60 then "// ... (省略前面部分)" :: defLines1
    else defLines1
  | i + 1, defLines, braceCount =>
    let prevLine := lines.getD (i + 1) ""
    let defLines1 := prevLine :: defLines
    let braceCount1 := braceCount + charCount prevLine '}' - charCount prevLine '{'
    if braceCount1 == 0 && matchesTypedefStart prevLine then defLines1
    else if defLines1.length ≥ 60 then "// ... (省略前面部分)" :: defLines1
    else typedefMultiScanUp lines i defLines1 braceCount1

/-- The `if '{' not in line` head scan of the `struct` branch: append up to
4 following lines until one contains `{` (resetting the brace count from
that line). -/
def structHeadScan : List String → List String → Int → List String × Int
  | [], defLines, braceCount => (defLines, braceCount)
  | l :: rest, defLines, braceCount =>
    let defLines1 := defLines ++ [l]
    if pyContainsChar l '{' then (defLines1, charCount l '{' - charCount l '}')
    else structHeadScan rest defLines1 braceCount

/-- The forward body scan of the `struct` branch: append lines and balance
braces until the matching `}`, truncating at 60 lines. -/
def structBodyScan : List String → List String → Int → List String
  | [], defLines, _ => defLines
  | l :: rest, defLines, braceCount =>
    let defLines1 := defLines ++ [l]
    let braceCount1 := braceCount + charCount l '{' - charCount l '}'
    if braceCount1 == 0 && pyContainsChar l '}' then defLines1
    else if defLines1.length ≥ 60 then
      defLines1 ++ ["    // ... (省略剩余部分)", "\x7d;"]
    else structBodyScan rest defLines1 braceCount1

/-- The per-line extraction of `_search_struct_by_text` once a pattern of
the given `def_type` matched at `line_num`. -/
def extractStructDefinition (lines : List String) (filename : String)
    (lineNum : Nat) (line : String) (defType : String) : String :=
  if defType == "typedef_single" || defType == "using" then
    "// 来自: " ++ filename ++ "\n" ++ pyStrip line
  else if defType == "typedef_multi" then
    let definitionLines := typedefMultiScanUp lines lineNum [] 0
    "// 来自: " ++ filename ++ "\n" ++ pyJoin "\n" definitionLines
  else
    let startState :=
      if pyContainsChar line '{' then
        ([line], charCount line '{' - charCount line '}')
      else
        structHeadScan ((lines.drop (lineNum + 1)).take 4) [line]
          (charCount line '{' - charCount line '}')
    let definitionLines :=
      structBodyScan (lines.drop (lineNum + startState.1.length))
        startState.1 startState.2
    "// 来自: " ++ filename ++ "\n" ++ String.intercalate "\n" definitionLines

/-- The `for line_num, line in enumerate(lines)` loop of
`_search_struct_by_text`: at each line the first matching pattern (in
priority order) triggers extraction. -/
def searchStructLoop (lines : List String) (structName filename : String) :
    Nat → List String → Option String
  | _, [] => none
  | lineNum, line :: rest =>
    match (structSearchPatterns structName).find? (fun pr => pr.1 line) with
    | some pr => some (extractStructDefinition lines filename lineNum line pr.2)
    | none => searchStructLoop lines structName filename (lineNum + 1) rest

/-- `StructureExtractor._search_struct_by_text(content, struct_name,
filename)`. -/
def searchStructByText (content structName filename : String) : Option String :=
  let lines := pySplit "\n" content
  searchStructLoop lines structName filename 0 lines

/-- The inner keyword scan of `_find_struct_start_backward`:
`for j in range(i, max(0, i - 5), -1)` looking for a stripped line that
starts with `typedef`, `struct` or `class` (the stop index is excluded). -/
def backKeywordScan (lines : List String) (stop : Nat) : Nat → Option Nat
  | 0 => none
  | j + 1 =>
    if j + 1 ≤ stop then none
    else
      let testLine := pyStrip (lines.getD (j + 1) "")
      if pyStartsWith testLine "typedef" || pyStartsWith testLine "struct" ||
          pyStartsWith testLine "class" then some (j + 1)
      else backKeywordScan lines stop j

/-- The outer brace-balancing scan of `_find_struct_start_backward`:
`for i in range(end_idx, max(0, end_idx - 100), -1)` (stop excluded),
remembering whether a `}` was seen, accumulating `count('}') - count('{')`,
and on a balanced line containing `{` answering the keyword line above it
(or that line itself). -/
def backBraceScan (lines : List String) (stop : Nat) : Nat → Int → Bool → Option Nat
  | 0, _, _ => none
  | i + 1, braceCount, foundCloseBrace =>
    if i + 1 ≤ stop then none
    else
      let line := lines.getD (i + 1) ""
      let foundCloseBrace1 :=
        if !foundCloseBrace && pyContainsChar line '}' then true else foundCloseBrace
      let braceCount1 := braceCount + charCount line '}' - charCount line '{'
      if foundCloseBrace1 && braceCount1 == 0 && pyContainsChar line '{' then
        some ((backKeywordScan lines ((i + 1) - 5) (i + 1)).getD (i + 1))
      else backBraceScan lines stop i braceCount1 foundCloseBrace1

/-- `StructureSearcher._find_struct_start_backward(lines, end_idx)`. -/
def findStructStartBackward (lines : List String) (endIdx : Nat) : Option Nat :=
  backBraceScan lines (endIdx - 100) endIdx 0 false

/-! ## Concrete scenario inputs

Hand-built parse trees for the spec's scenarios (byte offsets index into the
scenario source text exactly as tree-sitter would report them). -/

/-- Source of scenario B: `a` calls `b`, `b` calls `a`. -/
def srcAB : List Char := "void a() \x7b b(); \x7d\nvoid b() \x7b a(); \x7d".toList

/-- The `function_definition` node of `a` in scenario B. -/
def aDefNode : Node :=
  ⟨"function_definition", 0, 17, 0, none,
    [⟨"primitive_type", 0, 4, 0, none, []⟩,
     ⟨"function_declarator", 5, 8, 0, some "declarator",
       [⟨"identifier", 5, 6, 0, some "declarator", []⟩,
        ⟨"parameter_list", 6, 8, 0, some "parameters", []⟩]⟩,
     ⟨"compound_statement", 9, 17, 0, some "body",
       [⟨"expression_statement", 11, 15, 0, none,
         [⟨"call_expression", 11, 14, 0, none,
           [⟨"identifier", 11, 12, 0, some "function", []⟩,
            ⟨"argument_list", 12, 14, 0, some "arguments", []⟩]⟩]⟩]⟩]⟩

/-- The `function_definition` node of `b` in scenario B. -/
def bDefNode : Node :=
  ⟨"function_definition", 18, 35, 1, none,
    [⟨"primitive_type", 18, 22, 1, none, []⟩,
     ⟨"function_declarator", 23, 26, 1, some "declarator",
       [⟨"identifier", 23, 24, 1, some "declarator", []⟩,
        ⟨"parameter_list", 24, 26, 1, some "parameters", []⟩]⟩,
     ⟨"compound_statement", 27, 35, 1, some "body",
       [⟨"expression_statement", 29, 33, 1, none,
         [⟨"call_expression", 29, 32, 1, none,
           [⟨"identifier", 29, 30, 1, some "function", []⟩,
            ⟨"argument_list", 30, 32, 1, some "arguments", []⟩]⟩]⟩]⟩]⟩

/-- Parse-tree root of scenario B. -/
def rootAB : Node := ⟨"translation_unit", 0, 35, 0, none, [aDefNode, bDefNode]⟩

/-- The function index of scenario B. -/
def fnsAB : List (String × FuncInfo) := (indexFileFunctions srcAB rootAB).1

/-- The second occurrence of `a` in the scenario-B call tree: marked
recursive, with zero children. -/
def treeABLeaf : CallNode :=
  { function_name := "a", file_path := "<unknown>", line_number := 1,
    signature := "void a()", called_from_line := 2, is_external := false,
    is_recursive := true, children := [] }

/-- The `b` node of the scenario-B call tree. -/
def treeABChild : CallNode :=
  { function_name := "b", file_path := "<unknown>", line_number := 2,
    signature := "void b()", called_from_line := 1, is_external := false,
    is_recursive := false, children := [treeABLeaf] }

/-- The call tree the tracer produces for entry `a` of scenario B: the
second occurrence of `a` is a recursive leaf. -/
def treeAB : CallNode :=
  { function_name := "a", file_path := "<unknown>", line_number := 1,
    signature := "void a()", called_from_line := 0, is_external := false,
    is_recursive := false, children := [treeABChild] }

/-- Source of scenario A: `foo` calls `bar`, `bar` calls `baz`, and `baz`
has no definition in the file. -/
def srcFB : List Char := "void foo() \x7b bar(); \x7d\nvoid bar() \x7b baz(); \x7d".toList

/-- The `function_definition` node of `foo` in scenario A. -/
def fooDefNode : Node :=
  ⟨"function_definition", 0, 21, 0, none,
    [⟨"primitive_type", 0, 4, 0, none, []⟩,
     ⟨"function_declarator", 5, 10, 0, some "declarator",
       [⟨"identifier", 5, 8, 0, some "declarator", []⟩,
        ⟨"parameter_list", 8, 10, 0, some "parameters", []⟩]⟩,
     ⟨"compound_statement", 11, 21, 0, some "body",
       [⟨"expression_statement", 13, 19, 0, none,
         [⟨"call_expression", 13, 18, 0, none,
           [⟨"identifier", 13, 16, 0, some "function", []⟩,
            ⟨"argument_list", 16, 18, 0, some "arguments", []⟩]⟩]⟩]⟩]⟩

/-- The `function_definition` node of `bar` in scenario A. -/
def barDefNode : Node :=
  ⟨"function_definition", 22, 43, 1, none,
    [⟨"primitive_type", 22, 26, 1, none, []⟩,
     ⟨"function_declarator", 27, 32, 1, some "declarator",
       [⟨"identifier", 27, 30, 1, some "declarator", []⟩,
        ⟨"parameter_list", 30, 32, 1, some "parameters", []⟩]⟩,
     ⟨"compound_statement", 33, 43, 1, some "body",
       [⟨"expression_statement", 35, 41, 1, none,
         [⟨"call_expression", 35, 40, 1, none,
           [⟨"identifier", 35, 38, 1, some "function", []⟩,
            ⟨"argument_list", 38, 40, 1, some "arguments", []⟩]⟩]⟩]⟩]⟩

/-- Parse-tree root of scenario A. -/
def rootFB : Node := ⟨"translation_unit", 0, 43, 0, none, [fooDefNode, barDefNode]⟩

/-- The function index of scenario A. -/
def fnsFB : List (String × FuncInfo) := (indexFileFunctions srcFB rootFB).1

/-- The call tree for entry `foo` of scenario A: `foo → bar → baz` with
`baz` an external leaf and no node marked recursive. -/
def treeFB : CallNode :=
  { function_name := "foo", file_path := "<unknown>", line_number := 1,
    signature := "void foo()", called_from_line := 0, is_external := false,
    is_recursive := false,
    children :=
      [{ function_name := "bar", file_path := "<unknown>", line_number := 2,
         signature := "void bar()", called_from_line := 1, is_external := false,
         is_recursive := false,
         children :=
           [{ function_name := "baz", file_path := "<external>",
              line_number := 0, signature := "<external function>",
              called_from_line := 2, is_external := true,
              is_recursive := false, children := [] }] }] }

/-- Source of the duplicate-definition input for the symbol index: two
definitions of `f`, on line 1 and line 2, with different signatures. -/
def srcFF : List Char := "int f() \x7b \x7d\nint f(int x) \x7b \x7d".toList

/-- First definition of `f` (line 1, signature `int f()`). -/
def fDef1 : Node :=
  ⟨"function_definition", 0, 11, 0, none,
    [⟨"primitive_type", 0, 3, 0, none, []⟩,
     ⟨"function_declarator", 4, 7, 0, some "declarator",
       [⟨"identifier", 4, 5, 0, some "declarator", []⟩,
        ⟨"parameter_list", 5, 7, 0, some "parameters", []⟩]⟩,
     ⟨"compound_statement", 8, 11, 0, some "body", []⟩]⟩

/-- Second definition of `f` (line 2, signature `int f(int x)`). -/
def fDef2 : Node :=
  ⟨"function_definition", 12, 28, 1, none,
    [⟨"primitive_type", 12, 15, 1, none, []⟩,
     ⟨"function_declarator", 16, 24, 1, some "declarator",
       [⟨"identifier", 16, 17, 1, some "declarator", []⟩,
        ⟨"parameter_list", 17, 24, 1, some "parameters", []⟩]⟩,
     ⟨"compound_statement", 25, 28, 1, some "body", []⟩]⟩

/-- Parse-tree root of the duplicate-definition input. -/
def rootFF : Node := ⟨"translation_unit", 0, 28, 0, none, [fDef1, fDef2]⟩

/-- A call tree rooted at `F` whose subtree through `G` reaches a
descendant named `F` again (indirect recursion), for the aggregation
claims. -/
def treeFDemo : CallNode :=
  { function_name := "F", file_path := "demo.cpp", line_number := 1,
    signature := "void F()", called_from_line := 0, is_external := false,
    is_recursive := false,
    children :=
      [{ function_name := "G", file_path := "demo.cpp", line_number := 5,
         signature := "void G()", called_from_line := 2, is_external := false,
         is_recursive := false, children := [] },
       { function_name := "H", file_path := "<external>", line_number := 0,
         signature := "<external function>", called_from_line := 3,
         is_external := true, is_recursive := false, children := [] }] }

/-- The call tree recorded for `G` in the overall call-chain map: it calls
back into `F` and into the external `E`. -/
def treeGDemo : CallNode :=
  { function_name := "G", file_path := "demo.cpp", line_number := 5,
    signature := "void G()", called_from_line := 0, is_external := false,
    is_recursive := false,
    children :=
      [{ function_name := "F", file_path := "demo.cpp", line_number := 1,
         signature := "void F()", called_from_line := 6, is_external := false,
         is_recursive := true, children := [] },
       { function_name := "E", file_path := "<external>", line_number := 0,
         signature := "<external function>", called_from_line := 7,
         is_external := true, is_recursive := false, children := [] }] }

/-- The `call_chains` map of the aggregation scenario. -/
def chainsDemo : List (String × CallNode) := [("F", treeFDemo), ("G", treeGDemo)]

/-- A function body with three `if_statement`s and one `switch_statement`
holding four `case_statement`s (scenario E). -/
def bodyC6 : Node :=
  ⟨"compound_statement", 0, 0, 0, some "body",
    [⟨"if_statement", 0, 0, 1, none, []⟩,
     ⟨"if_statement", 0, 0, 2, none, []⟩,
     ⟨"if_statement", 0, 0, 3, none, []⟩,
     ⟨"switch_statement", 0, 0, 4, none,
       [⟨"compound_statement", 0, 0, 4, some "body",
         [⟨"case_statement", 0, 0, 5, none, []⟩,
          ⟨"case_statement", 0, 0, 6, none, []⟩,
          ⟨"case_statement", 0, 0, 7, none, []⟩,
          ⟨"case_statement", 0, 0, 8, none, []⟩]⟩]⟩]⟩

/-- The `function_definition` node around `bodyC6`. -/
def funcC6 : Node :=
  ⟨"function_definition", 0, 0, 0, none,
    [⟨"function_declarator", 0, 0, 0, some "declarator", []⟩, bodyC6]⟩


/-! ## Helper lemmas -/

/-- A property preserved by every fold step is preserved by the fold. -/
theorem foldlPreserve {α β : Type} (P : β → Prop) (f : β → α → β)
    (h : ∀ b a, P b → P (f b a)) : ∀ (l : List α) (b : β), P b → P (l.foldl f b) := by
  intro l
  induction l with
  | nil => intro b hb; exact hb
  | cons a t ih => intro b hb; exact ih (f b a) (h b a hb)

/-- `List.contains` agrees with membership on strings. -/
theorem containsIff {s : List String} {x : String} : s.contains x = true ↔ x ∈ s := by
  simp [List.contains, List.elem_iff]

theorem memSetAddIff {s : List String} {x y : String} :
    x ∈ setAdd s y ↔ x ∈ s ∨ x = y := by
  unfold setAdd
  by_cases h : s.contains y = true
  · simp only [h, if_true]
    constructor
    · exact Or.inl
    · rintro (hx | rfl)
      · exact hx
      · exact containsIff.mp h
  · rw [if_neg h]
    simp [List.mem_append]

theorem lookupAppend {A : Type} (m l : List (String × A)) (k : String) :
    (m ++ l).lookup k = (m.lookup k).or (l.lookup k) := by
  induction m with
  | nil => simp [List.lookup]
  | cons p t ih =>
    by_cases hk : k = p.1
    · simp [List.lookup, hk]
    · have hb : (k == p.1) = false := by simp [hk]
      simp [List.lookup, hb, ih]

theorem lookupReplaceKey {A : Type} (k : String) (v : A) (k' : String) :
    ∀ (m : List (String × A)),
      (m.map (fun p => if p.1 = k then (k, v) else p)).lookup k' =
        if k' = k then (m.lookup k).map (fun _ => v) else m.lookup k' := by
  intro m
  induction m with
  | nil => by_cases h : k' = k <;> simp [List.lookup, h]
  | cons p t ih =>
    by_cases h1 : p.1 = k
    · subst h1
      rw [List.map_cons, if_pos rfl]
      by_cases h2 : k' = p.1
      · subst h2
        simp [List.lookup]
      · have hk2 : (k' == p.1) = false := by simp [h2]
        simp [List.lookup, hk2, ih, h2]
    · rw [List.map_cons, if_neg h1]
      by_cases h2 : k' = p.1
      · subst h2
        have h3 : ¬ p.1 = k := h1
        simp [List.lookup, h3]
      · have hk2 : (k' == p.1) = false := by simp [h2]
        have hk3 : (k == p.1) = false := by
          simp only [beq_eq_false_iff_ne, ne_eq]
          intro he
          exact h1 he.symm
        simp [List.lookup, hk2, hk3, ih]

theorem lookupDictInsert {A : Type} (m : List (String × A)) (k : String)
    (v : A) (k' : String) :
    (dictInsert m k v).lookup k' = if k' = k then some v else m.lookup k' := by
  unfold dictInsert
  by_cases h : (m.lookup k).isSome = true
  · rw [if_pos h, lookupReplaceKey]
    by_cases h2 : k' = k
    · obtain ⟨w, hw⟩ := Option.isSome_iff_exists.mp h
      simp [h2, hw]
    · simp [h2]
  · rw [if_neg h, lookupAppend]
    have hnone : m.lookup k = none := by
      cases hl : m.lookup k with
      | none => rfl
      | some w => rw [hl] at h; simp at h
    by_cases h2 : k' = k
    · have hk2 : (k' == k) = true := by simp [h2]
      simp [List.lookup, hk2, h2, hnone]
    · have hk2 : (k' == k) = false := by simp [h2]
      simp [List.lookup, hk2, h2]

/-- Every name in the `internal_functions` set produced by the function
index has an entry in the `file_functions` map. -/
theorem indexFileFunctionsSound (src : List Char) (root : Node) :
    ∀ x ∈ (indexFileFunctions src root).2,
      ((indexFileFunctions src root).1.lookup x).isSome = true := by
  unfold indexFileFunctions
  apply foldlPreserve
    (fun st : List (String × FuncInfo) × List String =>
      ∀ x ∈ st.2, (st.1.lookup x).isSome = true)
  · intro st funcNode hP
    by_cases hn : getFunctionName src funcNode == ""
    · simpa [hn] using hP
    · have hb : (getFunctionName src funcNode == "") = false := by
        simpa using hn
      simp only [hb, Bool.false_eq_true, if_false]
      intro x hx
      rcases memSetAddIff.mp hx with hx | rfl
      · rw [lookupDictInsert]
        by_cases hxe : x = getFunctionName src funcNode
        · simp [hxe]
        · simp only [hxe, if_false]
          exact hP x hx
      · rw [lookupDictInsert]
        simp
  · intro x hx
    simp at hx

/-- Every name in the `internal_data_structures` set produced by the
structure index has an entry in the `file_data_structures` map. -/
theorem indexFileDataStructuresSound (src : List Char) (root : Node) :
    ∀ x ∈ (indexFileDataStructures src root).2,
      ((indexFileDataStructures src root).1.lookup x).isSome = true := by
  unfold indexFileDataStructures
  apply foldlPreserve
    (fun st : List (String × DSInfo) × List String =>
      ∀ x ∈ st.2, (st.1.lookup x).isSome = true)
  · intro st pair hP
    apply foldlPreserve
      (fun st : List (String × DSInfo) × List String =>
        ∀ x ∈ st.2, (st.1.lookup x).isSome = true)
    · intro st node hP
      cases hname :
          (match findChildByType node "type_identifier" with
           | some n => some n
           | none => findChildByType node "identifier") with
      | none => simpa [hname] using hP
      | some n =>
        simp only [hname]
        intro x hx
        rcases memSetAddIff.mp hx with hx | rfl
        · rw [lookupDictInsert]
          by_cases hxe : x = getNodeText src n
          · simp [hxe]
          · simp only [hxe, if_false]
            exact hP x hx
        · rw [lookupDictInsert]
          simp
    · exact hP
  · intro x hx
    simp at hx

/-- Every name `_analyze_function_calls` adds to `external_functions` is
absent from the `file_functions` map. -/
theorem analyzeFunctionCallsExternal (src : List Char) (root : Node)
    (fileFunctions : List (String × FuncInfo)) :
    ∀ x ∈ analyzeFunctionCalls src root fileFunctions,
      fileFunctions.lookup x = none := by
  unfold analyzeFunctionCalls
  apply foldlPreserve
    (fun ext : List String => ∀ x ∈ ext, fileFunctions.lookup x = none)
  · intro ext callNode hP
    cases hc : childByFieldName callNode "function" with
    | none => simpa [hc] using hP
    | some funcNode =>
      simp only [hc]
      by_cases hstd : isStdLibFunction (reduceMemberCall (getNodeText src funcNode))
      · simpa [hstd] using hP
      · simp only [hstd, if_false]
        by_cases hin :
            (fileFunctions.lookup (reduceMemberCall (getNodeText src funcNode))).isSome
        · simpa [hin] using hP
        · simp only [hin, if_false]
          intro x hx
          rcases memSetAddIff.mp hx with hx | rfl
          · exact hP x hx
          · exact Option.not_isSome_iff_eq_none.mp hin
  · intro x hx
    simp at hx

/-- Every name `_analyze_data_structure_usage` adds to
`external_data_structures` is absent from the `file_data_structures`
map. -/
theorem analyzeDataStructureUsageExternal (src : List Char) (root : Node)
    (fileDataStructures : List (String × DSInfo)) :
    ∀ x ∈ analyzeDataStructureUsage src root fileDataStructures,
      fileDataStructures.lookup x = none := by
  unfold analyzeDataStructureUsage
  have step :
      ∀ (ext : List String) (typeNode : Node),
        (∀ x ∈ ext, fileDataStructures.lookup x = none) →
        ∀ x ∈ (if isStdLibType (getNodeText src typeNode) then ext
               else if (fileDataStructures.lookup (getNodeText src typeNode)).isSome
               then ext else setAdd ext (getNodeText src typeNode)),
          fileDataStructures.lookup x = none := by
    intro ext typeNode hP
    by_cases hstd : isStdLibType (getNodeText src typeNode)
    · simpa [hstd] using hP
    · simp only [hstd, if_false]
      by_cases hin : (fileDataStructures.lookup (getNodeText src typeNode)).isSome
      · simpa [hin] using hP
      · simp only [hin, if_false]
        intro x hx
        rcases memSetAddIff.mp hx with hx | rfl
        · exact hP x hx
        · exact Option.not_isSome_iff_eq_none.mp hin
  apply foldlPreserve
    (fun ext : List String => ∀ x ∈ ext, fileDataStructures.lookup x = none)
  · intro ext castNode hP
    cases hc : childByFieldName castNode "type" with
    | none => simpa [hc] using hP
    | some typeDesc =>
      simp only [hc]
      apply foldlPreserve
        (fun ext : List String => ∀ x ∈ ext, fileDataStructures.lookup x = none)
      · intro ext typeNode hP
        exact step ext typeNode hP
      · exact hP
  · apply foldlPreserve
      (fun ext : List String => ∀ x ∈ ext, fileDataStructures.lookup x = none)
    · intro ext typeNode hP
      exact step ext typeNode hP
    · intro x hx
      simp at hx

/-! ## Claim theorems: boundary disjointness (C10) -/

/-- C10: after `analyze_file` on a parseable file, the boundary sets are
disjoint — no name is both in `internalFunctions` and `externalFunctions`,
and none is both in `internalDataStructures` and
`externalDataStructures`, because indexing finishes before usages are
classified and a used name becomes external only when absent from the
corresponding in-file definition map. -/
theorem C10_boundary_sets_disjoint (src : List Char) (root : Node) :
    (∀ x ∈ (analyzeFileModel src root).internal_functions,
        x ∉ (analyzeFileModel src root).external_functions) ∧
    (∀ x ∈ (analyzeFileModel src root).internal_data_structures,
        x ∉ (analyzeFileModel src root).external_data_structures) := by
  constructor
  · intro x hx hmem
    have h1 := indexFileFunctionsSound src root x hx
    have h2 := analyzeFunctionCallsExternal src root
      (indexFileFunctions src root).1 x hmem
    rw [h2] at h1
    simp at h1
  · intro x hx hmem
    have h1 := indexFileDataStructuresSound src root x hx
    have h2 := analyzeDataStructureUsageExternal src root
      (indexFileDataStructures src root).1 x hmem
    rw [h2] at h1
    simp at h1

/-- Witness for C10 on the two-function scenario file: `a` is internal and
therefore not external. -/
theorem C10_boundary_sets_disjoint_witness :
    "a" ∈ (analyzeFileModel srcAB rootAB).internal_functions ∧
    "a" ∉ (analyzeFileModel srcAB rootAB).external_functions :=
  ⟨by decide, (C10_boundary_sets_disjoint srcAB rootAB).1 "a" (by decide)⟩

/-! ## Claim theorems: symbol index overwrite (C3) -/

/-- The function-index fold resolves a non-empty name to the latest indexed
definition carrying it (or falls back to the initial map). -/
theorem indexFoldLookup (src : List Char) (name : String) (hname : ¬ name = "") :
    ∀ (l : List Node) (init : List (String × FuncInfo) × List String),
      (l.foldl (fun st funcNode =>
          let funcName := getFunctionName src funcNode
          if funcName == "" then st
          else (dictInsert st.1 funcName (mkFuncInfo src funcNode),
                setAdd st.2 funcName)) init).1.lookup name =
        ((l.reverse.find? (fun d => getFunctionName src d == name)).map
          (mkFuncInfo src)).or (init.1.lookup name) := by
  intro l
  induction l with
  | nil => intro init; simp
  | cons d t ih =>
    intro init
    rw [List.foldl_cons, ih, List.reverse_cons, List.find?_append]
    cases hf : t.reverse.find? (fun d => getFunctionName src d == name) with
    | some x => simp
    | none =>
      simp only [Option.none_or]
      by_cases hd : getFunctionName src d = name
      · have hde : (getFunctionName src d == name) = true := by simp [hd]
        have hdn : (getFunctionName src d == "") = false := by
          simp [hd]
          intro he
          exact hname he
        simp only [List.find?, hde, Option.map_some, Option.or_some,
          hdn, Bool.false_eq_true, if_false]
        rw [lookupDictInsert]
        simp [hd]
      · have hde : (getFunctionName src d == name) = false := by simp [hd]
        simp only [List.find?, hde, Option.map_none, Option.none_or]
        by_cases hdn : getFunctionName src d == ""
        · simp [hdn]
        · have hdn2 : (getFunctionName src d == "") = false := by simpa using hdn
          simp only [hdn2, Bool.false_eq_true, if_false]
          rw [lookupDictInsert]
          have : ¬ name = getFunctionName src d := fun he => hd he.symm
          simp [this]

/-- C3 counterexample: in a file whose first definition of `f` is on line 1
(signature `int f()`) and whose second is on line 2 (signature
`int f(int x)`), the symbol index stores the second definition's line and
signature, not the first's. -/
theorem C3_counterexample :
    getFunctionName srcFF fDef1 = "f" ∧ fDef1.row + 1 = 1 ∧
    ((indexFileFunctions srcFF rootFF).1.lookup "f").map FuncInfo.line = some 2 ∧
    ((indexFileFunctions srcFF rootFF).1.lookup "f").map FuncInfo.signature =
      some "int f(int x)" :=
  ⟨rfl, rfl, rfl, rfl⟩

/-- C3 (amended): when a file contains several definitions with the same
extracted non-empty name, the symbol index records the LAST definition
encountered in the single linear traversal — the stored record is exactly
the one built from the latest matching `function_definition` node. -/
theorem C3_last_definition_wins (src : List Char) (root : Node) (name : String)
    (hname : ¬ name = "") :
    (indexFileFunctions src root).1.lookup name =
      ((findNodesByType "function_definition" root).reverse.find?
        (fun d => getFunctionName src d == name)).map (mkFuncInfo src) := by
  unfold indexFileFunctions
  rw [indexFoldLookup src name hname]
  simp [List.lookup]

/-- Witness for C3 (amended) on the duplicate-`f` file. -/
theorem C3_last_definition_wins_witness :
    ¬ ("f" = "") ∧
    (indexFileFunctions srcFF rootFF).1.lookup "f" =
      ((findNodesByType "function_definition" rootFF).reverse.find?
        (fun d => getFunctionName srcFF d == "f")).map (mkFuncInfo srcFF) :=
  ⟨by decide, C3_last_definition_wins srcFF rootFF "f" (by decide)⟩

/-! ## Claim theorems: external classification (C2) -/

/-- C2 counterexample: with the default configuration the name `LOG_ERROR`
is all-uppercase with an underscore, so the macro heuristic (highest
priority) claims it: `classify` leaves `loggingUtility` empty and puts
`LOG_ERROR` into `macros`, contradicting the claim that `LOG_ERROR` is
assigned to the `loggingUtility` bucket. -/
theorem C2_counterexample :
    (classify defaultClassifierConfig ["LOG_ERROR"]).logging_utility = [] ∧
    (classify defaultClassifierConfig ["LOG_ERROR"]).macros = ["LOG_ERROR"] :=
  ⟨rfl, rfl⟩

/-- C2 (amended): with the default configuration, `classify` assigns
`LOG_ERROR` and `GET_MSG_LEN` to `macros` (the all-caps-with-underscore
macro heuristic precedes every pattern bucket), `memcpy` to
`standardLibrary` and `ProcessPayment` to `business`; and any name caught
by the macro heuristic lands only in `macros`, even when lower-priority
pattern lists (such as the `*LOG*` logging glob) also match it. -/
theorem C2_classification_scenario :
    (classify defaultClassifierConfig
        ["LOG_ERROR", "GET_MSG_LEN", "memcpy", "ProcessPayment"] =
      ⟨["ProcessPayment"], ["memcpy"], [], ["LOG_ERROR", "GET_MSG_LEN"]⟩) ∧
    (∀ name, likelyMacroName defaultClassifierConfig name = true →
      classify defaultClassifierConfig [name] = ⟨[], [], [], [name]⟩) := by
  constructor
  · rfl
  · intro name h
    simp [classify, h, setAdd]

/-- Witness for C2 (amended) at `LOG_ERROR`, a name that the macro
heuristic and the `*LOG*` logging glob both match: priority sends it to
`macros` alone. -/
theorem C2_classification_scenario_witness :
    likelyMacroName defaultClassifierConfig "LOG_ERROR" = true ∧
    classify defaultClassifierConfig ["LOG_ERROR"] = ⟨[], [], [], ["LOG_ERROR"]⟩ :=
  ⟨by decide, C2_classification_scenario.2 "LOG_ERROR" (by decide)⟩

/-! ## Claim theorems: trailing-alias structure search (C7) -/

/-- C7: for `typedef struct { int x; } Foo;` spanning three lines, the
text search recognizes the closing `} Foo;` line with the `typedef_multi`
pattern, scans backwards balancing braces up to the `typedef struct {`
line, and returns the full three-line definition (not just the final
line); and `_find_struct_start_backward` run from the `} Foo;` line of a
header answers the index of the `typedef struct {` line. -/
theorem C7_trailing_alias_struct_search :
    (searchStructByText "typedef struct \x7b\n    int x;\n\x7d Foo;" "Foo" "test.h" =
      some "// 来自: test.h\ntypedef struct \x7b\n    int x;\n\x7d Foo;") ∧
    (findStructStartBackward ["", "typedef struct \x7b", "    int x;", "\x7d Foo;"] 3 =
      some 1) :=
  ⟨rfl, rfl⟩

/-! ## Claim theorems: cyclomatic complexity (C6) -/

/-- C6: a function whose body has exactly 3 `if` statements, a switch with
4 case labels, and no loop, logical operator or ternary, gets cyclomatic
complexity `1 + 3 + 4 = 8` (1 plus the number of decision points). -/
theorem C6_cyclomatic_complexity (funcNode bodyNode : Node)
    (hbody : getFunctionBody funcNode = some bodyNode)
    (hif : countNodes ["if_statement"] bodyNode = 3)
    (hcase : countSwitchCases bodyNode = 4)
    (hloop : countNodes ["for_statement", "while_statement", "do_statement"]
      bodyNode = 0)
    (hlog : countLogicalOperators bodyNode = 0)
    (hter : countNodes ["conditional_expression"] bodyNode = 0) :
    (analyzeFunction funcNode).cyclomatic_complexity = 8 := by
  unfold analyzeFunction
  rw [hbody]
  simp [countTernaryOperators, hif, hcase, hloop, hlog, hter]

/-- Witness for C6 on the concrete scenario-E function body. -/
theorem C6_cyclomatic_complexity_witness :
    getFunctionBody funcC6 = some bodyC6 ∧
    (analyzeFunction funcC6).cyclomatic_complexity = 8 :=
  ⟨rfl, C6_cyclomatic_complexity funcC6 bodyC6 rfl rfl rfl rfl rfl rfl⟩

/-! ## Claim theorems: root exclusion in aggregation (C5) -/

/-- C5: aggregating the dependencies of `F` with `exclude_func = F` never
places `F` in the internal or external dependency set, even when a
descendant node in the call tree (direct or through `call_chains`) carries
`F`'s name — every child named `F` is skipped before any set insertion. -/
theorem C5_root_excluded_from_dependencies (chains : List (String × CallNode))
    (F : String) (fuel : Nat) (node : CallNode) (st : DepState)
    (hInt : F ∉ st.internal_set) (hExt : F ∉ st.external_set) :
    F ∉ (collectAllDependencies chains (some F) fuel node st).internal_set ∧
    F ∉ (collectAllDependencies chains (some F) fuel node st).external_set := by
  induction fuel generalizing node st with
  | zero => exact ⟨hInt, hExt⟩
  | succ k ih =>
    unfold collectAllDependencies
    by_cases hempty : node.children.isEmpty
    · simp only [hempty, if_true]
      exact ⟨hInt, hExt⟩
    · simp only [hempty, Bool.false_eq_true, if_false]
      apply foldlPreserve
        (fun st : DepState => F ∉ st.internal_set ∧ F ∉ st.external_set)
      · intro st child hP
        by_cases hskip : (some F == some child.function_name) = true
        · simp only [hskip, if_true]
          exact hP
        · have hne : ¬ F = child.function_name := by
            intro he
            exact hskip (by simp [he])
          simp only [hskip, Bool.false_eq_true, if_false]
          by_cases hvis : st.visited.contains child.function_name
          · simp only [hvis, if_true]
            exact hP
          · have hvis2 : st.visited.contains child.function_name = false := by
              simpa using hvis
            simp only [hvis2, Bool.false_eq_true, if_false]
            by_cases hext : child.is_external = true
            · simp only [hext, if_true]
              refine ⟨hP.1, ?_⟩
              intro hmem
              rcases memSetAddIff.mp hmem with h | h
              · exact hP.2 h
              · exact hne h
            · have hext2 : child.is_external = false := by
                simpa using hext
              simp only [hext2, Bool.false_eq_true, if_false]
              have hP1 : F ∉ (setAdd st.internal_set child.function_name) := by
                intro hmem
                rcases memSetAddIff.mp hmem with h | h
                · exact hP.1 h
                · exact hne h
              cases hl : chains.lookup child.function_name with
              | some tree =>
                simp only [hl]
                exact ih tree _ hP1 hP.2
              | none =>
                simp only [hl]
                exact ⟨hP1, hP.2⟩
      · exact ⟨hInt, hExt⟩

/-- Witness for C5 on a call tree for `F` whose subtree through `G` names
`F` again. -/
theorem C5_root_excluded_from_dependencies_witness :
    "F" ∉ (collectAllDependencies chainsDemo (some "F") 5 treeFDemo
      ⟨[], [], []⟩).internal_set ∧
    "F" ∉ (collectAllDependencies chainsDemo (some "F") 5 treeFDemo
      ⟨[], [], []⟩).external_set :=
  C5_root_excluded_from_dependencies chainsDemo "F" 5 treeFDemo ⟨[], [], []⟩
    (by decide) (by decide)

/-! ## Call-tree path infrastructure -/

/-- Membership in the concatenated path lists of a forest. -/
theorem memPathsFromList {cs : List CallNode} {q : List CallNode} :
    q ∈ pathsFromList cs ↔ ∃ c ∈ cs, q ∈ pathsFrom c := by
  induction cs with
  | nil => simp [pathsFromList]
  | cons c t ih =>
    simp [pathsFromList, List.mem_append, ih]

/-- Membership in the concatenated node lists of a forest. -/
theorem memAllNodesList {cs : List CallNode} {m : CallNode} :
    m ∈ allNodesList cs ↔ ∃ c ∈ cs, m ∈ allNodes c := by
  induction cs with
  | nil => simp [allNodesList]
  | cons c t ih =>
    simp [allNodesList, List.mem_append, ih]

/-- Structural induction for call trees: to prove a property of every tree
it suffices to prove it for a node assuming it for all children. -/
theorem callNodeInduction (P : CallNode → Prop)
    (step : ∀ n : CallNode, (∀ c ∈ n.children, P c) → P n) : ∀ n, P n := by
  have key : ∀ (k : Nat) (n : CallNode), sizeOf n ≤ k → P n := by
    intro k
    induction k with
    | zero =>
      intro n hn
      exfalso
      cases n with
      | mk nm fp ln sg cfl ex rc cs =>
        simp [CallNode.mk.sizeOf_spec] at hn
    | succ k ih =>
      intro n hn
      apply step
      intro c hc
      apply ih
      have h1 : sizeOf c < sizeOf n.children := List.sizeOf_lt_of_mem hc
      cases n with
      | mk nm fp ln sg cfl ex rc cs =>
        simp only [CallNode.mk.sizeOf_spec] at hn
        simp only at h1
        omega
  intro n
  exact key (sizeOf n) n le_rfl

/-- Every node of a call tree lies on some root-to-node path. -/
theorem memAllNodesPath :
    ∀ (n : CallNode), ∀ m ∈ allNodes n, ∃ p, p ∈ pathsFrom n ∧ m ∈ p := by
  apply callNodeInduction (fun n => ∀ m ∈ allNodes n, ∃ p, p ∈ pathsFrom n ∧ m ∈ p)
  intro n ihc m hm
  cases n with
  | mk nm fp ln sg cfl ex rc cs =>
    simp only [allNodes] at hm
    rcases List.mem_cons.mp hm with rfl | hm'
    · refine ⟨[⟨nm, fp, ln, sg, cfl, ex, rc, cs⟩], ?_, List.mem_singleton_self _⟩
      simp [pathsFrom]
    · obtain ⟨c, hc, hmc⟩ := memAllNodesList.mp hm'
      obtain ⟨p, hp, hmp⟩ := ihc c hc m hmc
      refine ⟨⟨nm, fp, ln, sg, cfl, ex, rc, cs⟩ :: p, ?_, List.mem_cons_of_mem _ hmp⟩
      simp only [pathsFrom, List.mem_cons]
      right
      exact List.mem_map_of_mem _ (memPathsFromList.mpr ⟨c, hc, hp⟩)

/-- On a `PathGood` path, a node preceded (in the path or in the ambient
prefix `pre`) by an occurrence of its own name is a recursive leaf. -/
theorem pathGoodDup :
    ∀ (q : List CallNode) (pre : List String) (p : List CallNode)
      (m : CallNode) (r : List CallNode),
      PathGood pre p → p = q ++ m :: r →
      (m.function_name ∈ pre ∨ m.function_name ∈ q.map CallNode.function_name) →
      m.is_recursive = true ∧ m.children = [] := by
  intro q
  induction q with
  | nil =>
    intro pre p m r hPG hp hmem
    subst hp
    rcases hmem with hmem | hmem
    · exact hPG.1 hmem
    · simp at hmem
  | cons a q' ih =>
    intro pre p m r hPG hp hmem
    subst hp
    apply ih (a.function_name :: pre) (q' ++ m :: r) m r hPG.2.2 rfl
    rcases hmem with hmem | hmem
    · exact Or.inl (List.mem_cons_of_mem _ hmem)
    · rw [List.map_cons] at hmem
      rcases List.mem_cons.mp hmem with heq | hmem'
      · exact Or.inl (heq ▸ List.mem_cons_self _ _)
      · exact Or.inr hmem'

/-- On a `PathGood` path, a node flagged recursive either repeats a name of
the ambient prefix `pre` or makes the path's name sequence repeat. -/
theorem pathGoodRec :
    ∀ (p : List CallNode) (pre : List String) (m : CallNode),
      PathGood pre p → m ∈ p → m.is_recursive = true →
      m.function_name ∈ pre ∨ ¬ (p.map CallNode.function_name).Nodup := by
  intro p
  induction p with
  | nil =>
    intro pre m _ hm
    simp at hm
  | cons h t ih =>
    intro pre m hPG hm hrec
    rcases List.mem_cons.mp hm with rfl | hm'
    · exact Or.inl (hPG.2.1 hrec)
    · rcases ih (h.function_name :: pre) m hPG.2.2 hm' hrec with hcase | hcase
      · rcases List.mem_cons.mp hcase with heq | hpre
        · right
          intro hnd
          simp only [List.map_cons, List.nodup_cons] at hnd
          exact hnd.1 (heq ▸ List.mem_map_of_mem _ hm')
        · exact Or.inl hpre
      · right
        intro hnd
        simp only [List.map_cons, List.nodup_cons] at hnd
        exact hcase hnd.2

/-- `PathGood` (for every path) survives the tracer's final
`called_from_line` update of a child node, which changes no name, flag or
child list. -/
theorem pathGoodUpdateCalledFrom (c0 : CallNode) (l : Nat) (pre : List String)
    (h : ∀ p ∈ pathsFrom c0, PathGood pre p) :
    ∀ q ∈ pathsFrom { c0 with called_from_line := l }, PathGood pre q := by
  cases c0 with
  | mk nm fp ln sg cfl ex rc cs =>
    intro q hq
    simp only [pathsFrom, List.mem_cons, List.mem_map] at hq
    rcases hq with rfl | ⟨q', hq', rfl⟩
    · have h0 := h [⟨nm, fp, ln, sg, cfl, ex, rc, cs⟩]
        (by simp [pathsFrom])
      simpa [PathGood] using h0
    · have h1 := h (⟨nm, fp, ln, sg, cfl, ex, rc, cs⟩ :: q')
        (by
          simp only [pathsFrom, List.mem_cons, List.mem_map]
          exact Or.inr ⟨q', hq', rfl⟩)
      simpa [PathGood] using h1

/-- Path lengths in a tree whose root had its `called_from_line` updated
match path lengths of the original tree. -/
theorem pathLenUpdateCalledFrom (c0 : CallNode) (l : Nat) (bound : Nat)
    (h : ∀ p ∈ pathsFrom c0, p.length ≤ bound) :
    ∀ q ∈ pathsFrom { c0 with called_from_line := l }, q.length ≤ bound := by
  cases c0 with
  | mk nm fp ln sg cfl ex rc cs =>
    intro q hq
    simp only [pathsFrom, List.mem_cons, List.mem_map] at hq
    rcases hq with rfl | ⟨q', hq', rfl⟩
    · have h0 := h [⟨nm, fp, ln, sg, cfl, ex, rc, cs⟩]
        (by simp [pathsFrom])
      simpa using h0
    · have h1 := h (⟨nm, fp, ln, sg, cfl, ex, rc, cs⟩ :: q')
        (by
          simp only [pathsFrom, List.mem_cons, List.mem_map]
          exact Or.inr ⟨q', hq', rfl⟩)
      simpa using h1

/-- Soundness of the tracer with respect to `PathGood`: a trace started
with path set `visited` (all of whose names resolve in the file) yields a
tree all of whose root-to-node paths satisfy the recursion-marking
invariant relative to `visited`. -/
theorem traceRecPathGood (src : List Char) (fns : List (String × FuncInfo))
    (fp : String) :
    ∀ (fuel : Nat) (funcName : String) (visited : List String) (n : CallNode),
      (∀ v ∈ visited, (fns.lookup v).isSome = true) →
      traceRec src fns fp funcName visited fuel = some n →
      ∀ p ∈ pathsFrom n, PathGood visited p := by
  intro fuel
  induction fuel with
  | zero =>
    intro funcName visited n hOk htr
    simp [traceRec] at htr
  | succ k ih =>
    intro funcName visited n hOk htr
    simp only [traceRec] at htr
    cases hl : fns.lookup funcName with
    | none =>
      rw [hl] at htr
      simp only [Option.some.injEq] at htr
      subst htr
      intro p hp
      simp only [pathsFrom, pathsFromList, List.map_nil, List.mem_cons,
        List.not_mem_nil, or_false] at hp
      subst hp
      refine ⟨?_, ?_, trivial⟩
      · intro hmem
        have := hOk funcName hmem
        rw [hl] at this
        simp at this
      · intro hrec
        simp at hrec
    | some info =>
      rw [hl] at htr
      by_cases hv : visited.contains funcName = true
      · simp only [hv, if_true, Option.some.injEq] at htr
        subst htr
        intro p hp
        simp only [pathsFrom, pathsFromList, List.map_nil, List.mem_cons,
          List.not_mem_nil, or_false] at hp
        subst hp
        refine ⟨?_, ?_, trivial⟩
        · intro _
          exact ⟨rfl, rfl⟩
        · intro _
          exact containsIff.mp hv
      · have hv2 : visited.contains funcName = false := by simpa using hv
        simp only [hv2, Bool.false_eq_true, if_false, Option.some.injEq] at htr
        subst htr
        intro p hp
        simp only [pathsFrom, List.mem_cons, List.mem_map] at hp
        rcases hp with rfl | ⟨q, hq, rfl⟩
        · refine ⟨?_, ?_, trivial⟩
          · intro hmem
            rw [containsIff.mpr hmem] at hv2
            simp at hv2
          · intro hrec
            simp at hrec
        · obtain ⟨c, hc, hqc⟩ := memPathsFromList.mp hq
          refine ⟨?_, ?_, ?_⟩
          · intro hmem
            rw [containsIff.mpr hmem] at hv2
            simp at hv2
          · intro hrec
            simp at hrec
          · obtain ⟨callExpr, hce, hfc⟩ := List.mem_filterMap.mp hc
            cases hcf : childByFieldName callExpr "function" with
            | none =>
              rw [hcf] at hfc
              simp at hfc
            | some funcExpr =>
              rw [hcf] at hfc
              by_cases hstd :
                  isStdLibFunction (reduceMemberCall (getNodeText src funcExpr)) = true
              · simp only [hstd, if_true] at hfc
                simp at hfc
              · have hstd2 :
                    isStdLibFunction (reduceMemberCall (getNodeText src funcExpr)) =
                      false := by simpa using hstd
                simp only [hstd2, Bool.false_eq_true, if_false] at hfc
                cases htr2 : traceRec src fns fp
                    (reduceMemberCall (getNodeText src funcExpr))
                    (funcName :: visited) k with
                | none =>
                  rw [htr2] at hfc
                  simp at hfc
                | some childNode =>
                  rw [htr2] at hfc
                  simp only [Option.some.injEq] at hfc
                  subst hfc
                  have hOk2 : ∀ v ∈ funcName :: visited,
                      (fns.lookup v).isSome = true := by
                    intro v hvm
                    rcases List.mem_cons.mp hvm with rfl | hvm'
                    · rw [hl]; rfl
                    · exact hOk v hvm'
                  have hsub := ih (reduceMemberCall (getNodeText src funcExpr))
                    (funcName :: visited) childNode hOk2 htr2
                  exact pathGoodUpdateCalledFrom childNode (callExpr.row + 1)
                    (funcName :: visited) hsub q hqc

/-- Depth-bound soundness of the tracer: a trace with `fuel`
(= `max_depth - depth`) yields a tree whose root-to-node paths have at
most `fuel` nodes. -/
theorem traceRecPathLen (src : List Char) (fns : List (String × FuncInfo))
    (fp : String) :
    ∀ (fuel : Nat) (funcName : String) (visited : List String) (n : CallNode),
      traceRec src fns fp funcName visited fuel = some n →
      ∀ p ∈ pathsFrom n, p.length ≤ fuel := by
  intro fuel
  induction fuel with
  | zero =>
    intro funcName visited n htr
    simp [traceRec] at htr
  | succ k ih =>
    intro funcName visited n htr
    simp only [traceRec] at htr
    cases hl : fns.lookup funcName with
    | none =>
      rw [hl] at htr
      simp only [Option.some.injEq] at htr
      subst htr
      intro p hp
      simp only [pathsFrom, pathsFromList, List.map_nil, List.mem_cons,
        List.not_mem_nil, or_false] at hp
      subst hp
      simp
    | some info =>
      rw [hl] at htr
      by_cases hv : visited.contains funcName = true
      · simp only [hv, if_true, Option.some.injEq] at htr
        subst htr
        intro p hp
        simp only [pathsFrom, pathsFromList, List.map_nil, List.mem_cons,
          List.not_mem_nil, or_false] at hp
        subst hp
        simp
      · have hv2 : visited.contains funcName = false := by simpa using hv
        simp only [hv2, Bool.false_eq_true, if_false, Option.some.injEq] at htr
        subst htr
        intro p hp
        simp only [pathsFrom, List.mem_cons, List.mem_map] at hp
        rcases hp with rfl | ⟨q, hq, rfl⟩
        · simp
        · obtain ⟨c, hc, hqc⟩ := memPathsFromList.mp hq
          obtain ⟨callExpr, hce, hfc⟩ := List.mem_filterMap.mp hc
          cases hcf : childByFieldName callExpr "function" with
          | none =>
            rw [hcf] at hfc
            simp at hfc
          | some funcExpr =>
            rw [hcf] at hfc
            by_cases hstd :
                isStdLibFunction (reduceMemberCall (getNodeText src funcExpr)) = true
            · simp only [hstd, if_true] at hfc
              simp at hfc
            · have hstd2 :
                  isStdLibFunction (reduceMemberCall (getNodeText src funcExpr)) =
                    false := by simpa using hstd
              simp only [hstd2, Bool.false_eq_true, if_false] at hfc
              cases htr2 : traceRec src fns fp
                  (reduceMemberCall (getNodeText src funcExpr))
                  (funcName :: visited) k with
              | none =>
                rw [htr2] at hfc
                simp at hfc
              | some childNode =>
                rw [htr2] at hfc
                simp only [Option.some.injEq] at hfc
                subst hfc
                have hsub := ih (reduceMemberCall (getNodeText src funcExpr))
                  (funcName :: visited) childNode htr2
                have hq' := pathLenUpdateCalledFrom childNode (callExpr.row + 1)
                  k hsub q hqc
                simp only [List.length_cons]
                omega

/-! ## Claim theorems: cycle handling and termination of the tracer
(C1, C4, C8, C9) -/

/-- C1: tracing `a` in a file where `a` calls `b` and `b` calls `a` gives
the tree `a → b → a` whose second `a` is marked `isRecursive` with zero
children; and in every tree the tracer returns, a node preceded on its
root-to-node path by a node of the same name is marked `isRecursive` with
empty children (the trace itself is a total function, so tracing always
terminates). -/
theorem C1_cycle_recursive_leaf :
    (traceCallChain srcAB fnsAB "<unknown>" "a" 100 = some treeAB) ∧
    (∀ (src : List Char) (fns : List (String × FuncInfo)) (fp entry : String)
        (maxD : Nat) (root : CallNode),
      traceCallChain src fns fp entry maxD = some root →
      ∀ p ∈ pathsFrom root, ∀ (q : List CallNode) (m : CallNode)
        (r : List CallNode), p = q ++ m :: r →
        m.function_name ∈ q.map CallNode.function_name →
        m.is_recursive = true ∧ m.children = []) := by
  constructor
  · rfl
  · intro src fns fp entry maxD root htrace p hp q m r hpqr hmem
    unfold traceCallChain at htrace
    by_cases h : (fns.lookup entry).isSome = true
    · simp only [h, if_true] at htrace
      have hPG := traceRecPathGood src fns fp maxD entry [] root
        (by intro v hv; simp at hv) htrace p hp
      exact pathGoodDup q [] p m r hPG hpqr (Or.inr hmem)
    · have h2 : (fns.lookup entry).isSome = false := by
        cases hh : (fns.lookup entry).isSome with
        | false => rfl
        | true => exact absurd hh h
      rw [h2] at htrace
      simp at htrace

/-- Witness for C1: the concrete recursive leaf of the `a → b → a` trace,
reached through the general invariant at the path `[a, b, a]`. -/
theorem C1_cycle_recursive_leaf_witness :
    treeABLeaf.is_recursive = true ∧ treeABLeaf.children = [] :=
  C1_cycle_recursive_leaf.2 srcAB fnsAB "<unknown>" "a" 100 treeAB rfl
    [treeAB, treeABChild, treeABLeaf]
    (by
      rw [show pathsFrom treeAB =
        [[treeAB], [treeAB, treeABChild], [treeAB, treeABChild, treeABLeaf]]
        from rfl]
      exact List.mem_cons_of_mem _ (List.mem_cons_of_mem _ (List.mem_cons_self _ _)))
    [treeAB, treeABChild] treeABLeaf [] rfl (by decide)

/-- C4: when no root-to-node path of the returned tree repeats a function
name (no actual recursion reachable from the entry point), no node of the
tree is marked `isRecursive` — in particular sibling subtrees reaching the
same name never produce a recursion mark, since each branch threads its
own copy of the path set. -/
theorem C4_no_false_cycles (src : List Char) (fns : List (String × FuncInfo))
    (fp entry : String) (maxD : Nat) (root : CallNode)
    (htrace : traceCallChain src fns fp entry maxD = some root)
    (hnodup : ∀ p ∈ pathsFrom root, (p.map CallNode.function_name).Nodup) :
    ∀ m ∈ allNodes root, m.is_recursive = false := by
  intro m hm
  cases hrec : m.is_recursive with
  | false => rfl
  | true =>
    exfalso
    obtain ⟨p, hp, hmp⟩ := memAllNodesPath root m hm
    unfold traceCallChain at htrace
    by_cases h : (fns.lookup entry).isSome = true
    · simp only [h, if_true] at htrace
      have hPG := traceRecPathGood src fns fp maxD entry [] root
        (by intro v hv; simp at hv) htrace p hp
      rcases pathGoodRec p [] m hPG hmp hrec with hmem | hnd
      · simp at hmem
      · exact hnd (hnodup p hp)
    · have h2 : (fns.lookup entry).isSome = false := by
        cases hh : (fns.lookup entry).isSome with
        | false => rfl
        | true => exact absurd hh h
      rw [h2] at htrace
      simp at htrace

/-- Witness for C4 on scenario A (`foo → bar → baz`, no recursion): no
node of the traced tree is marked recursive. -/
theorem C4_no_false_cycles_witness :
    traceCallChain srcFB fnsFB "<unknown>" "foo" 100 = some treeFB ∧
    ∀ m ∈ allNodes treeFB, m.is_recursive = false :=
  ⟨rfl, C4_no_false_cycles srcFB fnsFB "<unknown>" "foo" 100 treeFB rfl
    (by decide)⟩

/-- C8: `trace_call_chain` returns null exactly when the entry name has no
entry in the analyzed file's function map; on a defined entry (and a
positive depth budget, the default being 100) it returns a root node
carrying the entry's name — and, being a total function, it raises no
exception on an undefined entry. -/
theorem C8_trace_entry_contract (src : List Char)
    (fns : List (String × FuncInfo)) (fp entry : String) (maxD : Nat) :
    (fns.lookup entry = none → traceCallChain src fns fp entry maxD = none) ∧
    ((fns.lookup entry).isSome = true → 0 < maxD →
      ∃ root, traceCallChain src fns fp entry maxD = some root ∧
        root.function_name = entry) := by
  constructor
  · intro h
    unfold traceCallChain
    simp [h]
  · intro h hpos
    unfold traceCallChain
    simp only [h, if_true]
    obtain ⟨k, rfl⟩ : ∃ k, maxD = k + 1 := ⟨maxD - 1, by omega⟩
    obtain ⟨info, hinfo⟩ := Option.isSome_iff_exists.mp h
    simp only [traceRec, hinfo]
    exact ⟨_, rfl, rfl⟩

/-- Witness for C8: an undefined entry yields null, the defined entry `a`
yields a root named `a`. -/
theorem C8_trace_entry_contract_witness :
    traceCallChain srcAB fnsAB "<unknown>" "missing" 100 = none ∧
    ∃ root, traceCallChain srcAB fnsAB "<unknown>" "a" 100 = some root ∧
      root.function_name = "a" :=
  ⟨(C8_trace_entry_contract srcAB fnsAB "<unknown>" "missing" 100).1 rfl,
   (C8_trace_entry_contract srcAB fnsAB "<unknown>" "a" 100).2 (by decide)
     (by decide)⟩

/-- C9: the tracer is a total function whose recursion consumes the depth
budget — with `fuel = max_depth - depth`, the guard `depth >= max_depth`
is `fuel = 0` and returns null at once, and every root-to-node path of a
returned tree has at most `maxDepth` nodes, so no node lies at depth
`maxDepth` or more below the root. -/
theorem C9_depth_bound :
    (∀ (src : List Char) (fns : List (String × FuncInfo)) (fp name : String)
        (visited : List String), traceRec src fns fp name visited 0 = none) ∧
    (∀ (src : List Char) (fns : List (String × FuncInfo)) (fp entry : String)
        (maxD : Nat) (root : CallNode),
      traceCallChain src fns fp entry maxD = some root →
      ∀ p ∈ pathsFrom root, p.length ≤ maxD) := by
  constructor
  · intro src fns fp name visited
    rfl
  · intro src fns fp entry maxD root htrace p hp
    unfold traceCallChain at htrace
    by_cases h : (fns.lookup entry).isSome = true
    · simp only [h, if_true] at htrace
      exact traceRecPathLen src fns fp maxD entry [] root htrace p hp
    · have h2 : (fns.lookup entry).isSome = false := by
        cases hh : (fns.lookup entry).isSome with
        | false => rfl
        | true => exact absurd hh h
      rw [h2] at htrace
      simp at htrace

/-- Witness for C9: the deepest path of the `a → b → a` trace stays within
the depth budget of 100. -/
theorem C9_depth_bound_witness :
    traceCallChain srcAB fnsAB "<unknown>" "a" 100 = some treeAB ∧
    ([treeAB, treeABChild, treeABLeaf] : List CallNode).length ≤ 100 :=
  ⟨rfl, C9_depth_bound.2 srcAB fnsAB "<unknown>" "a" 100 treeAB rfl
    [treeAB, treeABChild, treeABLeaf]
    (by
      rw [show pathsFrom treeAB =
        [[treeAB], [treeAB, treeABChild], [treeAB, treeABChild, treeABLeaf]]
        from rfl]
      exact List.mem_cons_of_mem _ (List.mem_cons_of_mem _ (List.mem_cons_self _ _)))⟩
